import Mathlib

/-!
Verification of the memory-layout engine of the webgpu-computed repository.

The repository contains two largely-duplicated implementations of the same
engine: the class in `src/utils/GpuComputed.ts` (modelled here in namespace
`GC`) and the class in `src/utils/WGSL_Fun.ts` (namespace `WF`).  Each
namespace carries its own copy of the type tables and of the layout planner,
traced line by line from its own file, so that the two can be compared.
The JavaScript value model and the buffer-writing loop, whose code lines are
identical in the two files, are shared at top level.

All sizes and offsets are measured in 32-bit storage elements, exactly as in
the source (`TYPE_SIZE` counts f32 elements, not bytes).
-/

/-- A JavaScript number as it flows through the engine: either NaN or an
ordinary numeric value.  The engine never does arithmetic on the values it
moves, so the numeric payload is modelled as a rational. -/
inductive JSNum where
  | nan : JSNum
  | val : ℚ → JSNum
deriving DecidableEq

instance : Inhabited JSNum := ⟨JSNum.val 0⟩

/-- An element of a record field value: a number, or any other non-numeric
non-array JavaScript value (such as the string "abc") whose `Number(...)`
coercion yields NaN without throwing. -/
inductive JElem where
  | num : JSNum → JElem
  | other : JElem
deriving DecidableEq

/-- A record field value as supplied by the caller: a bare element or an
array of elements.  Nested arrays do not occur in the engine's data model
(a field is "a number or a fixed-length numeric sequence"). -/
inductive JVal where
  | elem : JElem → JVal
  | arr : List JElem → JVal
deriving DecidableEq

/-- A record: a JavaScript object, modelled as an association list in key
insertion order (keys of a JS object are unique). -/
abbrev Rec := List (String × JVal)

/-- JavaScript property access `obj[key]` on an association list:
the first binding wins, a missing key yields `undefined` (`none`). -/
def assocLookup {α : Type} : List (String × α) → String → Option α
  | [], _ => none
  | (k, v) :: rest, key => if k = key then some v else assocLookup rest key

/-- The `Number(...)` coercion applied to one element.
A number coerces to itself (including NaN); any other value coerces to NaN
without an error being raised. -/
def jsNumber : JElem → JSNum
  | .num n => n
  | .other => .nan

/-- Source line (both files): `if (!Array.isArray(value)) value = [value]`.
A non-array value (including `undefined` for a missing field) is wrapped in a
one-element array; array entries may themselves be missing (`none`). -/
def wrapValue : Option JVal → List (Option JElem)
  | none => [none]
  | some (.elem e) => [some e]
  | some (.arr l) => l.map some

/-- Source line (both files): `Number(value[i] ?? 0)`.  Reading past the end
of the wrapped value, or reading a missing element, yields 0; any other
element goes through the `Number` coercion. -/
def writtenElem (l : List (Option JElem)) (i : ℕ) : JSNum :=
  match l[i]? with
  | some (some e) => jsNumber e
  | _ => JSNum.val 0

deriving instance DecidableEq for Except

/-- The closed set of supported WGSL types (both files declare the same
string union). -/
inductive WgslType where
  | f32 | vec2 | vec3 | vec4 | mat3x3 | mat4x4
deriving DecidableEq

/-- One planned field: `{name, type, offset, size}` as produced by either
layout planner. -/
structure FieldDesc where
  name : String
  type : WgslType
  offset : ℕ
  size : ℕ
deriving DecidableEq

/-- Source loop (both files): `for (let i = 0; i < item.size; i++)
data[offset + item.offset + i] = Number(value[i] ?? 0)` with `pos` standing
for `offset + item.offset`. -/
def writeField (d : List JSNum) (pos : ℕ) (l : List (Option JElem)) (size : ℕ) : List JSNum :=
  (List.range size).foldl (fun acc i => acc.set (pos + i) (writtenElem l i)) d

/-- Source loop (identical in `buildStruct` of WGSL_Fun.ts and in the write
phase of `buildBuffer` of GpuComputed.ts): for each field of the layout,
look the field name up in the record, wrap the value, and write `size`
elements at `base + field.offset`. -/
def writeStruct (tem : List FieldDesc) (valueObj : Rec) (base : ℕ) (d : List JSNum) : List JSNum :=
  tem.foldl
    (fun acc item =>
      writeField acc (base + item.offset) (wrapValue (assocLookup valueObj item.name)) item.size)
    d

/-- Source loop (identical record iteration in `buildStructArray` of
WGSL_Fun.ts and in `buildBuffer` of GpuComputed.ts): record `i` is written
at base `i * stride`. -/
def writeRecordsLoop (layout : List FieldDesc) (stride : ℕ) :
    List Rec → ℕ → List JSNum → List JSNum
  | [], _, d => d
  | r :: rs, i, d => writeRecordsLoop layout stride rs (i + 1) (writeStruct layout r (i * stride) d)

namespace WF

/-- The `TYPE_SIZE` table of WGSL_Fun.ts: element counts in f32 units. -/
def TYPE_SIZE : WgslType → ℕ
  | .f32 => 1
  | .vec2 => 2
  | .vec3 => 3
  | .vec4 => 4
  | .mat3x3 => 12
  | .mat4x4 => 16

/-- The `TYPE_ALIGN` table of WGSL_Fun.ts: alignments in f32 units. -/
def TYPE_ALIGN : WgslType → ℕ
  | .f32 => 1
  | .vec2 => 2
  | .vec3 => 4
  | .vec4 => 4
  | .mat3x3 => 4
  | .mat4x4 => 4

/-- The `padding` function of WGSL_Fun.ts:
`(alignment - (offset % alignment)) % alignment`. -/
def padding (offset : ℕ) (t : WgslType) : ℕ :=
  (TYPE_ALIGN t - offset % TYPE_ALIGN t) % TYPE_ALIGN t

/-- The `roundUp` function of WGSL_Fun.ts:
`offset + ((align - (offset % align)) % align)`. -/
def roundUp (offset a : ℕ) : ℕ :=
  offset + ((a - offset % a) % a)

/-- The layout accumulation of `buildStructTypeByData` (WGSL_Fun.ts):
advance the running offset by the padding of each field's type, record
`{name, type, offset, size}`, then advance by the size. -/
def planFields : List (String × WgslType) → ℕ → List FieldDesc
  | [], _ => []
  | (k, t) :: rest, offset =>
    ⟨k, t, offset + padding offset t, TYPE_SIZE t⟩ ::
      planFields rest (offset + padding offset t + TYPE_SIZE t)

/-- The value of the running `offset` variable after the layout loop of
`buildStructTypeByData` has consumed all fields: the packed end offset. -/
def packedEnd : List (String × WgslType) → ℕ → ℕ
  | [], offset => offset
  | (_, t) :: rest, offset => packedEnd rest (offset + padding offset t + TYPE_SIZE t)

/-- Source line: `Math.max(...types.map(t => TYPE_ALIGN[t]))`, folded from 0;
for a non-empty list this equals the JavaScript value since every alignment
is at least 1. -/
def maxAlign (ts : List WgslType) : ℕ :=
  ts.foldl (fun m t => max m (TYPE_ALIGN t)) 0

/-- The stride computed by `buildStructTypeByData`:
`offset + ((structAlign - (offset % structAlign)) % structAlign)`. -/
def planStride (fields : List (String × WgslType)) : ℕ :=
  roundUp (packedEnd fields 0) (maxAlign (fields.map Prod.snd))

/-- The struct-array template `{stride, layout}` (`IStructArray` with its
offsets and stride filled in). -/
structure StructArr where
  stride : ℕ
  layout : List FieldDesc
deriving DecidableEq

/-- The type-inference step shared by `buildStructTypeByData`: an array is
matched against the element counts of vec2, vec3, vec4, mat3x3, mat4x4 in
that order; a plain number is f32; anything else (including `undefined`)
throws. -/
def inferType (k : String) : Option JVal → Except String WgslType
  | some (.arr l) =>
    match [WgslType.vec2, .vec3, .vec4, .mat3x3, .mat4x4].find?
        (fun t => TYPE_SIZE t == l.length) with
    | some t => .ok t
    | none => .error (k ++ " 不支持的数组长度 " ++ toString l.length)
  | some (.elem (.num _)) => .ok .f32
  | _ => .error (k ++ " 不支持的类型")

/-- The `buildStructTypeByData` function of WGSL_Fun.ts: infer a type per
key of the example record, then plan the layout and the stride. -/
def buildStructTypeByData (data : Rec) : Except String StructArr :=
  match data.mapM (fun kv => inferType kv.1 (some kv.2)) with
  | .error e => .error e
  | .ok types =>
    if (data.map Prod.fst).length = types.length then
      .ok ⟨planStride ((data.map Prod.fst).zip types),
           planFields ((data.map Prod.fst).zip types) 0⟩
    else .error "keys 与 types 长度不一致"

/-- The `buildStruct` function of WGSL_Fun.ts on its always-taken call path
from `buildStructArray`, where the destination array is passed in.  (The
standalone allocation branch, used only for single-struct templates, is not
exercised by the claims.) -/
def buildStruct (tem : List FieldDesc) (valueObj : Rec) (offset : ℕ) (data : List JSNum) :
    List JSNum :=
  writeStruct tem valueObj offset data

/-- The `buildStructArray` function of WGSL_Fun.ts:
allocate `stride * values.length` zeros and write record `i` at base
`i * stride`. -/
def buildStructArray (tem : StructArr) (values : List Rec) : List JSNum :=
  writeRecordsLoop tem.layout tem.stride values 0
    (List.replicate (tem.stride * values.length) (JSNum.val 0))

/-- A template slot as dispatched on by `dataMap`: a bare numeric array, a
single struct, or a struct array. -/
inductive TemplateEntry where
  | raw : TemplateEntry
  | structT : List FieldDesc → TemplateEntry
  | structArr : StructArr → TemplateEntry
deriving DecidableEq

/-- A demapped field value: a bare scalar (if the extracted slice had length
one) or a sequence. -/
inductive OutVal where
  | scalar : JSNum → OutVal
  | seq : List JSNum → OutVal
deriving DecidableEq

/-- JavaScript `array.slice(s, e)`: both bounds clamped to the array. -/
def sliceJs (a : List JSNum) (s e : ℕ) : List JSNum :=
  (a.drop s).take (e - s)

/-- Source line: `data.length === 1 ? data[0] : data`. -/
def unwrapOut : List JSNum → OutVal
  | [x] => .scalar x
  | l => .seq l

/-- One record slice of `dataMap`: for each field, slice
`array.slice(base + offset, base + offset + size)` and unwrap. -/
def demapRecord (layout : List FieldDesc) (a : List JSNum) (base : ℕ) :
    List (String × OutVal) :=
  layout.map fun item =>
    (item.name, unwrapOut (sliceJs a (base + item.offset) (base + item.offset + item.size)))

/-- Iteration count of the `dataMap` loop.  The source computes
`count = array.length / stride` as a JavaScript (rational) division and runs
`for (let i = 0; i < count; i++)`, i.e. it iterates over every natural `i`
with `i * stride < array.length`: that is `ceil(length / stride)` iterations,
which for a positive stride equals `(length + stride - 1) / stride` in
natural division.  (`numRecordsLoop_iff` below proves this reading.) -/
def numRecords (len stride : ℕ) : ℕ :=
  (len + stride - 1) / stride

/-- The struct-array branch of `dataMap` (WGSL_Fun.ts). -/
def dataMapArray (tem : StructArr) (a : List JSNum) : List (List (String × OutVal)) :=
  (List.range (numRecords a.length tem.stride)).map fun i =>
    demapRecord tem.layout a (i * tem.stride)

/-- A `dataMap` result: a record list for a struct array, a single record for
a struct, or the raw array otherwise. -/
inductive MapResult where
  | records : List (List (String × OutVal)) → MapResult
  | record : List (String × OutVal) → MapResult
  | raw : List JSNum → MapResult
deriving DecidableEq

/-- The `dataMap` method of WGSL_Fun.ts: throws only when the key is absent
from the template, then dispatches on the slot kind.  It performs no check
of `array.length` against the stride. -/
def dataMap (template : List (String × TemplateEntry)) (a : List JSNum) (key : String) :
    Except String MapResult :=
  match assocLookup template key with
  | none => .error ("未找到数据字段：" ++ key)
  | some (.structArr tem) => .ok (.records (dataMapArray tem a))
  | some (.structT tem) => .ok (.record (demapRecord tem a 0))
  | some .raw => .ok (.raw a)

end WF

namespace GC

/-- The `TYPE_SIZE` table of GpuComputed.ts: element counts in f32 units. -/
def TYPE_SIZE : WgslType → ℕ
  | .f32 => 1
  | .vec2 => 2
  | .vec3 => 3
  | .vec4 => 4
  | .mat3x3 => 12
  | .mat4x4 => 16

/-- The `TYPE_ALIGN_SIZE` table of GpuComputed.ts: alignments in f32 units. -/
def TYPE_ALIGN_SIZE : WgslType → ℕ
  | .f32 => 1
  | .vec2 => 2
  | .vec3 => 4
  | .vec4 => 4
  | .mat3x3 => 4
  | .mat4x4 => 4

/-- The `align` function of GpuComputed.ts:
`(alignment - (offset % alignment)) % alignment`. -/
def align (offset : ℕ) (t : WgslType) : ℕ :=
  (TYPE_ALIGN_SIZE t - offset % TYPE_ALIGN_SIZE t) % TYPE_ALIGN_SIZE t

/-- The layout accumulation inside `buildBuffer` (GpuComputed.ts), the
`keys.map` loop that advances the running offset. -/
def planFields : List (String × WgslType) → ℕ → List FieldDesc
  | [], _ => []
  | (k, t) :: rest, offset =>
    ⟨k, t, offset + align offset t, TYPE_SIZE t⟩ ::
      planFields rest (offset + align offset t + TYPE_SIZE t)

/-- The value of the running `offset` variable after the layout loop of
`buildBuffer` has consumed all fields. -/
def packedEnd : List (String × WgslType) → ℕ → ℕ
  | [], offset => offset
  | (_, t) :: rest, offset => packedEnd rest (offset + align offset t + TYPE_SIZE t)

/-- Source line: `Math.max(...types.map(t => TYPE_ALIGN_SIZE[t]))`, folded
from 0; for a non-empty list this equals the JavaScript value since every
alignment is at least 1. -/
def maxAlign (ts : List WgslType) : ℕ :=
  ts.foldl (fun m t => max m (TYPE_ALIGN_SIZE t)) 0

/-- The stride computed by `buildBuffer`:
`offset + ((structAlign - (offset % structAlign)) % structAlign)`. -/
def planStride (fields : List (String × WgslType)) : ℕ :=
  packedEnd fields 0 +
    ((maxAlign (fields.map Prod.snd) - packedEnd fields 0 % maxAlign (fields.map Prod.snd)) %
      maxAlign (fields.map Prod.snd))

/-- The type-inference step inside `buildBuffer` (GpuComputed.ts): identical
to the one in WGSL_Fun.ts but reading this file's own `TYPE_SIZE` table. -/
def inferType (k : String) : Option JVal → Except String WgslType
  | some (.arr l) =>
    match [WgslType.vec2, .vec3, .vec4, .mat3x3, .mat4x4].find?
        (fun t => TYPE_SIZE t == l.length) with
    | some t => .ok t
    | none => .error (k ++ " 不支持的数组长度 " ++ toString l.length)
  | some (.elem (.num _)) => .ok .f32
  | _ => .error (k ++ " 不支持的类型")

/-- The result record of `buildBuffer`: `{buffer, stride, layout, count}`. -/
structure BufferType where
  buffer : List JSNum
  stride : ℕ
  layout : List FieldDesc
  count : ℕ
deriving DecidableEq

/-- The `buildBuffer` method of GpuComputed.ts.  An empty record list throws;
`keys` defaults to the keys of the first record and `types` to the types
inferred from the first record's values (inference failures propagate); a
`keys`/`types` length mismatch throws; then the layout and stride are
planned and every record is written into a zero-initialised buffer of
`stride * data.length` elements. -/
def buildBuffer (data : List Rec) (keys : Option (List String))
    (types : Option (List WgslType)) : Except String BufferType :=
  match data with
  | [] => .error "数据必须是非空数组"
  | r0 :: rest =>
    let ks := keys.getD (r0.map Prod.fst)
    match
      match types with
      | some ts => Except.ok ts
      | none => ks.mapM (fun k => inferType k (assocLookup r0 k)) with
    | .error e => .error e
    | .ok ts =>
      if ks.length = ts.length then
        let fields := ks.zip ts
        let layout := planFields fields 0
        let stride := planStride fields
        .ok ⟨writeRecordsLoop layout stride (r0 :: rest) 0
               (List.replicate (stride * (r0 :: rest).length) (JSNum.val 0)),
             stride, layout, (r0 :: rest).length⟩
      else .error "keys 与 types 长度不一致"

end GC

section ClaimSideNotions

/-- Conformity of a supplied field value to a field of element count `n`,
together with its numeric content `w`: the value is either a numeric
sequence of exactly length `n`, or (for a one-element field) a bare numeric
scalar. -/
def suppliesVal (n : ℕ) (v : JVal) (w : List JSNum) : Prop :=
  w.length = n ∧
    (v = JVal.arr (w.map JElem.num) ∨ (n = 1 ∧ v = JVal.elem (JElem.num w.headI)))

instance (n : ℕ) (v : JVal) (w : List JSNum) : Decidable (suppliesVal n v w) := by
  unfold suppliesVal
  infer_instance

/-- The struct-array template that `buildStructTypeByData` produces for a
given field list: the planned layout together with the planned stride. -/
def mkStructArr (fields : List (String × WgslType)) : WF.StructArr :=
  ⟨WF.planStride fields, WF.planFields fields 0⟩

/-- A record supplying each declared field of a layout, in declaration
order, with the value given by `val`. -/
def mkRec (fields : List (String × WgslType)) (val : String → JVal) : Rec :=
  fields.map fun p => (p.1, val p.1)

/-- Truncation of a field value to a declared element count: a sequence
keeps only its first `n` elements, any other value is unchanged. -/
def truncVal : Option ℕ → JVal → JVal
  | some n, .arr l => .arr (l.take n)
  | _, v => v

/-- First field of a layout with a given name. -/
def findField : List FieldDesc → String → Option FieldDesc
  | [], _ => none
  | fd :: rest, k => if fd.name = k then some fd else findField rest k

/-- A record with every sequence-valued field truncated to the element count
declared for it by the layout. -/
def truncRec (tem : List FieldDesc) (r : Rec) : Rec :=
  r.map fun p => (p.1, truncVal ((findField tem p.1).map FieldDesc.size) p.2)

/-- A concrete record value map used to witness the round trip:
field a carries the bare scalar 7, every other field the sequence [1, 2, 3]. -/
def witVal : String → JVal := fun k =>
  if k = "a" then JVal.elem (JElem.num (JSNum.val 7))
  else JVal.arr [JElem.num (JSNum.val 1), JElem.num (JSNum.val 2), JElem.num (JSNum.val 3)]

/-- The numeric content of `witVal`. -/
def witContent : String → List JSNum := fun k =>
  if k = "a" then [JSNum.val 7] else [JSNum.val 1, JSNum.val 2, JSNum.val 3]

end ClaimSideNotions

section ArithmeticLemmas

/-- The rounding expression `off + ((a - off % a) % a)` used by both files
lands on a multiple of `a`. -/
lemma roundExpr_mod (off a : ℕ) (ha : 0 < a) : (off + (a - off % a) % a) % a = 0 := by
  obtain ⟨q, r, hd, hr⟩ : ∃ q r, off = a * q + r ∧ r < a :=
    ⟨off / a, off % a, (Nat.div_add_mod off a).symm, Nat.mod_lt _ ha⟩
  subst hd
  have hmod : (a * q + r) % a = r := by
    rw [Nat.add_comm, Nat.add_mul_mod_self_left, Nat.mod_eq_of_lt hr]
  rw [hmod]
  rcases Nat.eq_zero_or_pos r with rfl | hpos
  · rw [Nat.sub_zero, Nat.mod_self, Nat.add_zero]
    exact hmod
  · rw [Nat.mod_eq_of_lt (by omega : a - r < a)]
    rw [Nat.add_assoc, Nat.add_sub_cancel' (le_of_lt hr), ← Nat.mul_succ]
    exact Nat.mul_mod_right a _

lemma WF.roundUp_mod (n a : ℕ) (ha : 0 < a) : WF.roundUp n a % a = 0 :=
  roundExpr_mod n a ha

lemma WF.le_roundUp (n a : ℕ) : n ≤ WF.roundUp n a :=
  Nat.le_add_right _ _

lemma WF.roundUp_lt (n a : ℕ) (ha : 0 < a) : WF.roundUp n a < n + a := by
  unfold WF.roundUp
  have := Nat.mod_lt (a - n % a) ha
  omega

lemma WF.roundUp_dvd (n a : ℕ) (ha : 0 < a) : a ∣ WF.roundUp n a :=
  Nat.dvd_of_mod_eq_zero (WF.roundUp_mod n a ha)

/-- The rounding expression yields the least multiple of `a` at or above `n`. -/
lemma WF.roundUp_min (n a m : ℕ) (ha : 0 < a) (hdvd : a ∣ m) (hnm : n ≤ m) :
    WF.roundUp n a ≤ m := by
  obtain ⟨k, rfl⟩ := hdvd
  obtain ⟨j, hj⟩ := WF.roundUp_dvd n a ha
  have h1 : a * j < n + a := by rw [← hj]; exact WF.roundUp_lt n a ha
  have h2 : a * j < a * (k + 1) := by
    calc a * j < n + a := h1
    _ ≤ a * k + a := by omega
    _ = a * (k + 1) := by ring
  have hjk : j < k + 1 := Nat.lt_of_mul_lt_mul_left h2
  rw [hj]
  exact Nat.mul_le_mul_left a (by omega)

end ArithmeticLemmas

section TableLemmas

lemma WF.TYPE_ALIGN_pos (t : WgslType) : 0 < WF.TYPE_ALIGN t := by cases t <;> decide

lemma WF.TYPE_SIZE_pos (t : WgslType) : 0 < WF.TYPE_SIZE t := by cases t <;> decide

lemma size_tables_eq (t : WgslType) : GC.TYPE_SIZE t = WF.TYPE_SIZE t := by cases t <;> rfl

lemma align_tables_eq (t : WgslType) : GC.TYPE_ALIGN_SIZE t = WF.TYPE_ALIGN t := by
  cases t <;> rfl

lemma align_padding_eq (off : ℕ) (t : WgslType) : GC.align off t = WF.padding off t := by
  unfold GC.align WF.padding
  rw [align_tables_eq]

end TableLemmas

section PlannerEquivalence

/-- The layout loops of the two files agree field by field. -/
lemma planFields_eq (fs : List (String × WgslType)) :
    ∀ off, GC.planFields fs off = WF.planFields fs off := by
  induction fs with
  | nil => intro off; rfl
  | cons p rest ih =>
    intro off
    obtain ⟨k, t⟩ := p
    simp only [GC.planFields, WF.planFields, align_padding_eq, size_tables_eq, ih]

lemma packedEnd_eq (fs : List (String × WgslType)) :
    ∀ off, GC.packedEnd fs off = WF.packedEnd fs off := by
  induction fs with
  | nil => intro off; rfl
  | cons p rest ih =>
    intro off
    obtain ⟨k, t⟩ := p
    simp only [GC.packedEnd, WF.packedEnd, align_padding_eq, size_tables_eq, ih]

lemma maxAlign_eq (ts : List WgslType) : GC.maxAlign ts = WF.maxAlign ts := by
  unfold GC.maxAlign WF.maxAlign
  suffices h : ∀ init : ℕ,
      ts.foldl (fun m t => max m (GC.TYPE_ALIGN_SIZE t)) init =
        ts.foldl (fun m t => max m (WF.TYPE_ALIGN t)) init from h 0
  induction ts with
  | nil => intro _; rfl
  | cons t rest ih => intro init; simp only [List.foldl_cons, align_tables_eq, ih]

lemma planStride_eq (fields : List (String × WgslType)) :
    GC.planStride fields = WF.planStride fields := by
  unfold GC.planStride WF.planStride WF.roundUp
  rw [packedEnd_eq, maxAlign_eq]

end PlannerEquivalence

section PlannerLemmas

lemma WF.le_packedEnd (fs : List (String × WgslType)) : ∀ off, off ≤ WF.packedEnd fs off := by
  induction fs with
  | nil => intro off; exact le_rfl
  | cons p rest ih =>
    intro off
    obtain ⟨k, t⟩ := p
    simp only [WF.packedEnd]
    exact le_trans (by omega : off ≤ off + WF.padding off t + WF.TYPE_SIZE t)
      (ih (off + WF.padding off t + WF.TYPE_SIZE t))

lemma WF.lt_packedEnd (fs : List (String × WgslType)) (h : fs ≠ []) :
    ∀ off, off < WF.packedEnd fs off := by
  intro off
  match fs, h with
  | (k, t) :: rest, _ =>
    have h1 : off < off + WF.padding off t + WF.TYPE_SIZE t := by
      have := WF.TYPE_SIZE_pos t
      omega
    exact lt_of_lt_of_le h1 (WF.le_packedEnd rest _)

lemma WF.planFields_offset_ge (fs : List (String × WgslType)) :
    ∀ off fd, fd ∈ WF.planFields fs off → off ≤ fd.offset := by
  induction fs with
  | nil => intro off fd h; simp [WF.planFields] at h
  | cons p rest ih =>
    intro off fd h
    obtain ⟨k, t⟩ := p
    rcases List.mem_cons.mp h with rfl | hmem
    · exact Nat.le_add_right off _
    · exact le_trans (by omega : off ≤ off + WF.padding off t + WF.TYPE_SIZE t) (ih _ fd hmem)

lemma WF.planFields_end_le (fs : List (String × WgslType)) :
    ∀ off fd, fd ∈ WF.planFields fs off → fd.offset + fd.size ≤ WF.packedEnd fs off := by
  induction fs with
  | nil => intro off fd h; simp [WF.planFields] at h
  | cons p rest ih =>
    intro off fd h
    obtain ⟨k, t⟩ := p
    rcases List.mem_cons.mp h with rfl | hmem
    · exact WF.le_packedEnd rest _
    · exact ih _ fd hmem

lemma WF.planFields_aligned (fs : List (String × WgslType)) :
    ∀ off fd, fd ∈ WF.planFields fs off → fd.offset % WF.TYPE_ALIGN fd.type = 0 := by
  induction fs with
  | nil => intro off fd h; simp [WF.planFields] at h
  | cons p rest ih =>
    intro off fd h
    obtain ⟨k, t⟩ := p
    rcases List.mem_cons.mp h with rfl | hmem
    · exact roundExpr_mod off (WF.TYPE_ALIGN t) (WF.TYPE_ALIGN_pos t)
    · exact ih _ fd hmem

lemma WF.planFields_field_mem (fs : List (String × WgslType)) :
    ∀ off fd, fd ∈ WF.planFields fs off →
      (fd.name, fd.type) ∈ fs ∧ fd.size = WF.TYPE_SIZE fd.type := by
  induction fs with
  | nil => intro off fd h; simp [WF.planFields] at h
  | cons p rest ih =>
    intro off fd h
    obtain ⟨k, t⟩ := p
    rcases List.mem_cons.mp h with rfl | hmem
    · exact ⟨List.mem_cons_self _ _, rfl⟩
    · obtain ⟨h1, h2⟩ := ih _ fd hmem
      exact ⟨List.mem_cons_of_mem _ h1, h2⟩

lemma WF.foldl_max_ge_init (ts : List WgslType) :
    ∀ init, init ≤ ts.foldl (fun m t => max m (WF.TYPE_ALIGN t)) init := by
  induction ts with
  | nil => intro init; exact le_rfl
  | cons t rest ih =>
    intro init
    exact le_trans (Nat.le_max_left init (WF.TYPE_ALIGN t)) (ih _)

lemma WF.maxAlign_pos (ts : List WgslType) (h : ts ≠ []) : 0 < WF.maxAlign ts := by
  match ts, h with
  | t :: rest, _ =>
    have h1 : WF.TYPE_ALIGN t ≤ WF.maxAlign (t :: rest) := by
      unfold WF.maxAlign
      exact le_trans (Nat.le_max_right 0 (WF.TYPE_ALIGN t)) (WF.foldl_max_ge_init rest _)
    have := WF.TYPE_ALIGN_pos t
    omega

lemma WF.packedEnd_le_planStride (fields : List (String × WgslType)) :
    WF.packedEnd fields 0 ≤ WF.planStride fields :=
  WF.le_roundUp _ _

lemma WF.planStride_pos (fields : List (String × WgslType)) (h : fields ≠ []) :
    0 < WF.planStride fields :=
  lt_of_lt_of_le (WF.lt_packedEnd fields h 0) (WF.packedEnd_le_planStride fields)

end PlannerLemmas

section WriteLemmas

lemma writeField_succ (d : List JSNum) (pos : ℕ) (l : List (Option JElem)) (n : ℕ) :
    writeField d pos l (n + 1) = (writeField d pos l n).set (pos + n) (writtenElem l n) := by
  unfold writeField
  rw [List.range_succ, List.foldl_append]
  rfl

lemma writeField_length (d : List JSNum) (pos : ℕ) (l : List (Option JElem)) (n : ℕ) :
    (writeField d pos l n).length = d.length := by
  induction n with
  | zero => rfl
  | succ n ih => rw [writeField_succ, List.length_set, ih]

/-- Pointwise description of `writeField`: positions `pos .. pos+n-1` inside
the buffer receive the written elements, every other position is untouched. -/
lemma writeField_getElem? (d : List JSNum) (pos : ℕ) (l : List (Option JElem)) (n q : ℕ) :
    (writeField d pos l n)[q]? =
      if pos ≤ q ∧ q < pos + n ∧ q < d.length then some (writtenElem l (q - pos))
      else d[q]? := by
  induction n with
  | zero =>
    rw [if_neg (by omega)]
    rfl
  | succ n ih =>
    rw [writeField_succ]
    by_cases hq : pos + n = q
    · subst hq
      by_cases hlen : pos + n < d.length
      · rw [List.getElem?_set_self (by rw [writeField_length]; exact hlen)]
        rw [if_pos (by omega)]
        congr 2
        omega
      · rw [List.set_eq_of_length_le (by rw [writeField_length]; omega), ih,
            if_neg (by omega), if_neg (by omega)]
    · rw [List.getElem?_set_ne hq, ih]
      by_cases h1 : pos ≤ q ∧ q < pos + n ∧ q < d.length
      · rw [if_pos h1, if_pos (by omega)]
      · rw [if_neg h1, if_neg (by omega)]

lemma writeStruct_cons (fd : FieldDesc) (tem : List FieldDesc) (r : Rec) (base : ℕ)
    (d : List JSNum) :
    writeStruct (fd :: tem) r base d =
      writeStruct tem r base
        (writeField d (base + fd.offset) (wrapValue (assocLookup r fd.name)) fd.size) :=
  rfl

lemma writeStruct_length (tem : List FieldDesc) :
    ∀ (r : Rec) (base : ℕ) (d : List JSNum), (writeStruct tem r base d).length = d.length := by
  induction tem with
  | nil => intro r base d; rfl
  | cons fd rest ih =>
    intro r base d
    rw [writeStruct_cons, ih, writeField_length]

/-- Positions strictly below every field of a layout are untouched by the
struct write. -/
lemma writeStruct_getElem?_below (tem : List FieldDesc) :
    ∀ (r : Rec) (base : ℕ) (d : List JSNum) (q : ℕ),
      (∀ fd ∈ tem, q < base + fd.offset) → (writeStruct tem r base d)[q]? = d[q]? := by
  induction tem with
  | nil => intro r base d q _; rfl
  | cons fd rest ih =>
    intro r base d q h
    rw [writeStruct_cons, ih r base _ q (fun g hg => h g (List.mem_cons_of_mem _ hg))]
    rw [writeField_getElem?, if_neg (by have := h fd (List.mem_cons_self _ _); omega)]

/-- Recovery of each field from the buffer written over a planned layout:
field regions are pairwise disjoint because planned offsets grow
monotonically, so each field's region still holds its own written elements
after the whole struct has been written. -/
lemma writeStruct_plan_getElem? (fs : List (String × WgslType)) :
    ∀ (off base : ℕ) (d : List JSNum) (r : Rec),
      base + WF.packedEnd fs off ≤ d.length →
      ∀ fd ∈ WF.planFields fs off, ∀ i < fd.size,
        (writeStruct (WF.planFields fs off) r base d)[base + fd.offset + i]? =
          some (writtenElem (wrapValue (assocLookup r fd.name)) i) := by
  induction fs with
  | nil => intro off base d r _ fd h; simp [WF.planFields] at h
  | cons p rest ih =>
    intro off base d r hle fd hfd i hi
    obtain ⟨k, t⟩ := p
    simp only [WF.packedEnd] at hle
    simp only [WF.planFields] at hfd ⊢
    rw [writeStruct_cons]
    rcases List.mem_cons.mp hfd with rfl | hmem
    · dsimp only at hi ⊢
      rw [writeStruct_getElem?_below]
      · rw [writeField_getElem?, if_pos]
        · congr 2
          omega
        · have h1 : off + WF.padding off t + WF.TYPE_SIZE t ≤
              WF.packedEnd rest (off + WF.padding off t + WF.TYPE_SIZE t) :=
            WF.le_packedEnd rest _
          exact ⟨by omega, by omega, by omega⟩
      · intro g hg
        have h2 := WF.planFields_offset_ge rest _ g hg
        omega
    · exact ih _ base _ r (by rw [writeField_length]; exact hle) fd hmem i hi

lemma writeRecordsLoop_length (layout : List FieldDesc) (stride : ℕ) :
    ∀ (vs : List Rec) (i : ℕ) (d : List JSNum),
      (writeRecordsLoop layout stride vs i d).length = d.length := by
  intro vs
  induction vs with
  | nil => intro i d; rfl
  | cons v rest ih =>
    intro i d
    simp only [writeRecordsLoop]
    rw [ih, writeStruct_length]

lemma WF.buildStructArray_length (tem : WF.StructArr) (vs : List Rec) :
    (WF.buildStructArray tem vs).length = tem.stride * vs.length := by
  unfold WF.buildStructArray
  rw [writeRecordsLoop_length, List.length_replicate]

lemma WF.buildStructArray_single (tem : WF.StructArr) (r : Rec) :
    WF.buildStructArray tem [r] =
      writeStruct tem.layout r 0 (List.replicate tem.stride (JSNum.val 0)) := by
  unfold WF.buildStructArray
  simp only [writeRecordsLoop, List.length_cons, List.length_nil, Nat.zero_add,
    Nat.mul_one, Nat.zero_mul]

end WriteLemmas

section SliceLemmas

lemma WF.sliceJs_length (a : List JSNum) (s n : ℕ) (h : s + n ≤ a.length) :
    (WF.sliceJs a s (s + n)).length = n := by
  unfold WF.sliceJs
  rw [List.length_take, List.length_drop]
  omega

lemma WF.sliceJs_getElem? (a : List JSNum) (s n i : ℕ) (hi : i < n) :
    (WF.sliceJs a s (s + n))[i]? = a[s + i]? := by
  unfold WF.sliceJs
  rw [Nat.add_sub_cancel_left, List.getElem?_take_of_lt hi, List.getElem?_drop]

/-- A slice whose positions agree pointwise with a list of the same length is
that list. -/
lemma slice_eq_of_pointwise (buf w : List JSNum) (s : ℕ)
    (hlen : s + w.length ≤ buf.length)
    (h : ∀ i < w.length, buf[s + i]? = w[i]?) :
    WF.sliceJs buf s (s + w.length) = w := by
  apply List.ext_getElem?
  intro i
  by_cases hi : i < w.length
  · rw [WF.sliceJs_getElem? buf s w.length i hi, h i hi]
  · rw [List.getElem?_eq_none (by rw [WF.sliceJs_length buf s w.length hlen]; omega),
        List.getElem?_eq_none (by omega)]

end SliceLemmas

section CountLemmas

/-- Justification of the model of the `dataMap` loop count: the source runs
`for (let i = 0; i < array.length / stride; i++)` with a rational division,
i.e. it iterates exactly over those `i` with `i * stride < array.length`. -/
lemma WF.numRecords_iff (len s i : ℕ) (hs : 0 < s) :
    i < WF.numRecords len s ↔ i * s < len := by
  unfold WF.numRecords
  rw [show (i < (len + s - 1) / s) = (i + 1 ≤ (len + s - 1) / s) from rfl,
      Nat.le_div_iff_mul_le hs, Nat.add_one_mul]
  have h : i * s + s ≤ len + s - 1 ↔ i * s < len := by omega
  exact h

lemma WF.numRecords_self (s : ℕ) (hs : 0 < s) : WF.numRecords s s = 1 := by
  unfold WF.numRecords
  rw [show s + s - 1 = (s - 1) + s * 1 by omega, Nat.add_mul_div_left _ _ hs,
      Nat.div_eq_of_lt (by omega)]

lemma WF.numRecords_dvd (len s : ℕ) (hs : 0 < s) (hdvd : s ∣ len) :
    WF.numRecords len s = len / s := by
  obtain ⟨k, rfl⟩ := hdvd
  unfold WF.numRecords
  rw [Nat.add_sub_assoc hs, Nat.add_comm, Nat.add_mul_div_left _ _ hs,
      Nat.div_eq_of_lt (by omega), Nat.mul_div_cancel_left _ hs, Nat.zero_add]

end CountLemmas

section ZeroFillLemmas

lemma writtenElem_missing (i : ℕ) : writtenElem [none] i = JSNum.val 0 := by
  cases i <;> rfl

lemma writeField_zero (pos n m : ℕ) (l : List (Option JElem))
    (hl : ∀ i, writtenElem l i = JSNum.val 0) :
    writeField (List.replicate m (JSNum.val 0)) pos l n = List.replicate m (JSNum.val 0) := by
  induction n with
  | zero => rfl
  | succ n ih => rw [writeField_succ, ih, hl, List.set_replicate_self]

/-- Writing the empty record (every field missing) over an all-zero buffer
leaves it all zero: missing fields are written as zeros. -/
lemma writeStruct_emptyRec (tem : List FieldDesc) (base m : ℕ) :
    writeStruct tem [] base (List.replicate m (JSNum.val 0)) =
      List.replicate m (JSNum.val 0) := by
  induction tem with
  | nil => rfl
  | cons fd rest ih =>
    rw [writeStruct_cons,
        show assocLookup ([] : Rec) fd.name = none from rfl,
        show wrapValue none = [none] from rfl,
        writeField_zero _ _ _ _ writtenElem_missing, ih]

end ZeroFillLemmas

section RoundTripSupport

lemma assocLookup_mkRec (fields : List (String × WgslType)) (val : String → JVal)
    (k : String) (h : k ∈ fields.map Prod.fst) :
    assocLookup (mkRec fields val) k = some (val k) := by
  induction fields with
  | nil => simp at h
  | cons p rest ih =>
    obtain ⟨a, t⟩ := p
    by_cases hk : a = k
    · subst hk
      simp [mkRec, assocLookup]
    · rw [List.map_cons, List.mem_cons] at h
      rcases h with h | h
    

      · exact absurd h.symm hk
      · simp only [mkRec, List.map_cons, assocLookup, if_neg hk]
        exact ih h

lemma suppliesVal_writtenElem (n : ℕ) (v : JVal) (w : List JSNum)
    (h : suppliesVal n v w) (i : ℕ) (hi : i < n) :
    some (writtenElem (wrapValue (some v)) i) = w[i]? := by
  obtain ⟨hlen, harr | ⟨hn, hsc⟩⟩ := h
  · subst harr
    have hic : i < w.length := by omega
    rw [List.getElem?_eq_getElem hic]
    simp only [wrapValue, writtenElem, List.getElem?_map, List.getElem?_eq_getElem hic]
    rfl
  · subst hn
    have hi0 : i = 0 := by omega
    subst hi0
    match w, hlen with
    | [x], _ =>
      subst hsc
      rfl

end RoundTripSupport

section RoundTripCore

/-- Pointwise recovery after a one-record build: each planned field's region
of the buffer holds exactly its supplied numeric content. -/
lemma buildSingle_field_slice (fields : List (String × WgslType))
    (val : String → JVal) (content : String → List JSNum)
    (hsup : ∀ p ∈ fields, suppliesVal (WF.TYPE_SIZE p.2) (val p.1) (content p.1))
    (fd : FieldDesc) (hfd : fd ∈ WF.planFields fields 0) :
    WF.sliceJs (WF.buildStructArray (mkStructArr fields) [mkRec fields val])
        fd.offset (fd.offset + fd.size) = content fd.name := by
  have hmem := WF.planFields_field_mem fields 0 fd hfd
  have hsupfd := hsup (fd.name, fd.type) hmem.1
  have hclen : (content fd.name).length = fd.size := by
    rw [hmem.2]
    exact hsupfd.1
  have hend : fd.offset + fd.size ≤ WF.planStride fields :=
    le_trans (WF.planFields_end_le fields 0 fd hfd) (WF.packedEnd_le_planStride fields)
  have hlen : (WF.buildStructArray (mkStructArr fields) [mkRec fields val]).length =
      WF.planStride fields := by
    rw [WF.buildStructArray_length]
    simp [mkStructArr]
  rw [← hclen]
  apply slice_eq_of_pointwise
  · omega
  · intro i hi
    have hi' : i < fd.size := by omega
    rw [WF.buildStructArray_single]
    have hget := writeStruct_plan_getElem? fields 0 0
      (List.replicate (mkStructArr fields).stride (JSNum.val 0)) (mkRec fields val)
      (by
        rw [List.length_replicate]
        simpa [mkStructArr] using WF.packedEnd_le_planStride fields)
      fd hfd i hi'
    rw [Nat.zero_add] at hget
    rw [show (mkStructArr fields).layout = WF.planFields fields 0 from rfl, hget]
    rw [assocLookup_mkRec fields val fd.name
      (List.mem_map_of_mem Prod.fst hmem.1)]
    exact suppliesVal_writtenElem (WF.TYPE_SIZE fd.type) (val fd.name) (content fd.name)
      (hmem.2 ▸ hsupfd) i (by omega)

/-- Core round-trip lemma: demapping the buffer built from one conforming
record yields exactly one record with each field's content, a one-element
field unwrapped to a bare scalar. -/
lemma roundtrip_core (fields : List (String × WgslType)) (hne : fields ≠ [])
    (val : String → JVal) (content : String → List JSNum)
    (hsup : ∀ p ∈ fields, suppliesVal (WF.TYPE_SIZE p.2) (val p.1) (content p.1)) :
    WF.dataMapArray (mkStructArr fields)
        (WF.buildStructArray (mkStructArr fields) [mkRec fields val]) =
      [(WF.planFields fields 0).map fun fd => (fd.name, WF.unwrapOut (content fd.name))] := by
  have hstride : 0 < (mkStructArr fields).stride := WF.planStride_pos fields hne
  have hlen : (WF.buildStructArray (mkStructArr fields) [mkRec fields val]).length =
      (mkStructArr fields).stride := by
    rw [WF.buildStructArray_length]
    simp
  unfold WF.dataMapArray
  rw [hlen, WF.numRecords_self _ hstride,
      show List.range 1 = [0] from rfl, List.map_cons, List.map_nil]
  congr 1
  unfold WF.demapRecord
  apply List.map_congr_left
  intro fd hfd
  rw [Nat.zero_mul, Nat.zero_add]
  rw [buildSingle_field_slice fields val content hsup fd hfd]

end RoundTripCore

section TruncationSupport

lemma writtenElem_congr (l1 l2 : List (Option JElem)) (i : ℕ) (h : l1[i]? = l2[i]?) :
    writtenElem l1 i = writtenElem l2 i := by
  unfold writtenElem
  rw [h]

lemma writeField_congr (d : List JSNum) (pos n : ℕ) (l1 l2 : List (Option JElem))
    (h : ∀ i < n, writtenElem l1 i = writtenElem l2 i) :
    writeField d pos l1 n = writeField d pos l2 n := by
  induction n with
  | zero => rfl
  | succ n ih =>
    rw [writeField_succ, writeField_succ, ih (fun i hi => h i (by omega)), h n (by omega)]

lemma assocLookup_map (r : Rec) (g : String → JVal → JVal) (k : String) :
    assocLookup (r.map fun p => (p.1, g p.1 p.2)) k = (assocLookup r k).map (g k) := by
  induction r with
  | nil => rfl
  | cons p rest ih =>
    obtain ⟨a, v⟩ := p
    by_cases h : a = k
    · subst h
      simp [assocLookup]
    · simp only [List.map_cons, assocLookup, if_neg h]
      exact ih

lemma findField_nodup (tem : List FieldDesc) (hnd : (tem.map FieldDesc.name).Nodup)
    (fd : FieldDesc) (hfd : fd ∈ tem) : findField tem fd.name = some fd := by
  induction tem with
  | nil => cases hfd
  | cons g rest ih =>
    rw [List.map_cons, List.nodup_cons] at hnd
    rcases List.mem_cons.mp hfd with rfl | hmem
    · simp [findField]
    · have hne : g.name ≠ fd.name := by
        intro he
        exact hnd.1 (he ▸ List.mem_map_of_mem FieldDesc.name hmem)
      rw [show findField (g :: rest) fd.name = findField rest fd.name by
        simp [findField, hne]]
      exact ih hnd.2 hmem

lemma writtenElem_take (l : List JElem) (n i : ℕ) (hi : i < n) :
    writtenElem (wrapValue (some (.arr (l.take n)))) i =
      writtenElem (wrapValue (some (.arr l))) i := by
  apply writtenElem_congr
  simp only [wrapValue, List.getElem?_map]
  rw [List.getElem?_take_of_lt hi]

/-- Writing a record and writing its truncated version produce the same
buffer, provided every written field finds itself in the reference layout. -/
lemma writeStruct_trunc_aux (tem tem2 : List FieldDesc)
    (h : ∀ fd ∈ tem2, findField tem fd.name = some fd) :
    ∀ (r : Rec) (base : ℕ) (d : List JSNum),
      writeStruct tem2 (truncRec tem r) base d = writeStruct tem2 r base d := by
  induction tem2 with
  | nil => intro r base d; rfl
  | cons fd rest ih =>
    intro r base d
    rw [writeStruct_cons, writeStruct_cons,
        ih (fun g hg => h g (List.mem_cons_of_mem _ hg))]
    congr 1
    apply writeField_congr
    intro i hi
    unfold truncRec
    rw [assocLookup_map r (fun k v => truncVal ((findField tem k).map FieldDesc.size) v) fd.name,
        h fd (List.mem_cons_self _ _)]
    cases hv : assocLookup r fd.name with
    | none => rfl
    | some v =>
      cases v with
      | elem e => rfl
      | arr l =>
        simp only [Option.map_some', Option.map]
        exact writtenElem_take l fd.size i hi

lemma writeRecordsLoop_trunc (layout : List FieldDesc)
    (h : ∀ fd ∈ layout, findField layout fd.name = some fd) (stride : ℕ) :
    ∀ (vs : List Rec) (i : ℕ) (d : List JSNum),
      writeRecordsLoop layout stride (vs.map (truncRec layout)) i d =
        writeRecordsLoop layout stride vs i d := by
  intro vs
  induction vs with
  | nil => intro i d; rfl
  | cons v rest ih =>
    intro i d
    simp only [List.map_cons, writeRecordsLoop]
    rw [writeStruct_trunc_aux layout layout h, ih]

end TruncationSupport

section BuildBufferSupport

lemma GC.buildBuffer_ok_shape (data : List Rec) (ks : Option (List String))
    (ts : Option (List WgslType)) (r : GC.BufferType)
    (h : GC.buildBuffer data ks ts = .ok r) :
    r.buffer.length = r.stride * r.count ∧ r.count = data.length := by
  match data with
  | [] => exact absurd h (by simp [GC.buildBuffer])
  | r0 :: rest =>
    simp only [GC.buildBuffer] at h
    split at h
    · exact absurd h (by simp)
    · split at h
      · injection h with h2
        subst h2
        refine ⟨?_, rfl⟩
        simp only [writeRecordsLoop_length, List.length_replicate]
      · exact absurd h (by simp)

lemma GC.buildBuffer_emptyRec (ks : List String) (ts : List WgslType)
    (hlen : ks.length = ts.length) :
    GC.buildBuffer [[]] (some ks) (some ts) =
      .ok ⟨List.replicate (GC.planStride (ks.zip ts)) (JSNum.val 0),
           GC.planStride (ks.zip ts), GC.planFields (ks.zip ts) 0, 1⟩ := by
  simp only [GC.buildBuffer, Option.getD]
  rw [if_pos hlen]
  congr 1
  simp only [writeRecordsLoop, List.length_cons, List.length_nil, Nat.zero_add,
    Nat.mul_one, Nat.zero_mul]
  rw [writeStruct_emptyRec]

end BuildBufferSupport

section ClaimTheorems

/-- C1: for every record layout over supported types (planned from a
non-empty field list) and every record conforming to its field set — each
declared field supplied with a bare numeric scalar or a numeric sequence of
exactly that field's element count — demapping the buffer built from the
one-record list returns exactly one record carrying, in declaration order,
each field's numbers: a single-element field unwrapped to a bare scalar and
every multi-element field kept as a sequence. -/
theorem spec_roundtrip_build_demap (fields : List (String × WgslType))
    (hne : fields ≠ []) (val : String → JVal) (content : String → List JSNum)
    (hsup : ∀ p ∈ fields, suppliesVal (WF.TYPE_SIZE p.2) (val p.1) (content p.1)) :
    WF.dataMapArray (mkStructArr fields)
        (WF.buildStructArray (mkStructArr fields) [mkRec fields val]) =
      [(WF.planFields fields 0).map fun fd => (fd.name, WF.unwrapOut (content fd.name))] :=
  roundtrip_core fields hne val content hsup

/-- Witness for the round trip at the layout [(a, f32), (b, vec3)] with the
record a = 7, b = [1, 2, 3]. -/
theorem spec_roundtrip_build_demap_witness :
    (([("a", WgslType.f32), ("b", WgslType.vec3)] : List (String × WgslType)) ≠ []) ∧
    (∀ p ∈ [("a", WgslType.f32), ("b", WgslType.vec3)],
      suppliesVal (WF.TYPE_SIZE p.2) (witVal p.1) (witContent p.1)) ∧
    WF.dataMapArray (mkStructArr [("a", WgslType.f32), ("b", WgslType.vec3)])
        (WF.buildStructArray (mkStructArr [("a", WgslType.f32), ("b", WgslType.vec3)])
          [mkRec [("a", WgslType.f32), ("b", WgslType.vec3)] witVal]) =
      [(WF.planFields [("a", WgslType.f32), ("b", WgslType.vec3)] 0).map
        fun fd => (fd.name, WF.unwrapOut (witContent fd.name))] :=
  ⟨by decide, by decide,
    spec_roundtrip_build_demap [("a", WgslType.f32), ("b", WgslType.vec3)] (by decide)
      witVal witContent (by decide)⟩

/-- C2: for every non-empty ordered list of (name, supported type) fields,
every field descriptor produced by the layout planner satisfies
`offset % alignment(type) = 0`, with the alignment table
f32:1, vec2:2, vec3:4, vec4:4, mat3x3:4, mat4x4:4. -/
theorem spec_offsets_aligned (fields : List (String × WgslType)) (hne : fields ≠ []) :
    (∀ fd ∈ GC.planFields fields 0, fd.offset % GC.TYPE_ALIGN_SIZE fd.type = 0) ∧
    (GC.TYPE_ALIGN_SIZE .f32 = 1 ∧ GC.TYPE_ALIGN_SIZE .vec2 = 2 ∧
     GC.TYPE_ALIGN_SIZE .vec3 = 4 ∧ GC.TYPE_ALIGN_SIZE .vec4 = 4 ∧
     GC.TYPE_ALIGN_SIZE .mat3x3 = 4 ∧ GC.TYPE_ALIGN_SIZE .mat4x4 = 4) := by
  refine ⟨?_, by decide⟩
  intro fd hfd
  rw [planFields_eq] at hfd
  rw [align_tables_eq]
  exact WF.planFields_aligned fields 0 fd hfd

/-- Witness for the offset alignment invariant at the layout
[(a, f32), (b, vec3)]. -/
theorem spec_offsets_aligned_witness :
    (([("a", WgslType.f32), ("b", WgslType.vec3)] : List (String × WgslType)) ≠ []) ∧
    ((∀ fd ∈ GC.planFields [("a", WgslType.f32), ("b", WgslType.vec3)] 0,
        fd.offset % GC.TYPE_ALIGN_SIZE fd.type = 0) ∧
     (GC.TYPE_ALIGN_SIZE .f32 = 1 ∧ GC.TYPE_ALIGN_SIZE .vec2 = 2 ∧
      GC.TYPE_ALIGN_SIZE .vec3 = 4 ∧ GC.TYPE_ALIGN_SIZE .vec4 = 4 ∧
      GC.TYPE_ALIGN_SIZE .mat3x3 = 4 ∧ GC.TYPE_ALIGN_SIZE .mat4x4 = 4)) :=
  ⟨by decide, spec_offsets_aligned [("a", WgslType.f32), ("b", WgslType.vec3)] (by decide)⟩

/-- C3: the planned stride is the smallest multiple of the maximum field
alignment at or above the packed end offset of the last field; in particular
for [f32, vec3] the stride is 8 with field offsets [0, 4], and for
[vec3, f32] the stride is 4 with field offsets [0, 3]. -/
theorem spec_stride_least_multiple :
    (∀ fields : List (String × WgslType), fields ≠ [] →
      GC.maxAlign (fields.map Prod.snd) ∣ GC.planStride fields ∧
      GC.packedEnd fields 0 ≤ GC.planStride fields ∧
      (∀ m, GC.maxAlign (fields.map Prod.snd) ∣ m → GC.packedEnd fields 0 ≤ m →
        GC.planStride fields ≤ m)) ∧
    GC.planStride [("a", .f32), ("b", .vec3)] = 8 ∧
    (GC.planFields [("a", .f32), ("b", .vec3)] 0).map FieldDesc.offset = [0, 4] ∧
    GC.planStride [("a", .vec3), ("b", .f32)] = 4 ∧
    (GC.planFields [("a", .vec3), ("b", .f32)] 0).map FieldDesc.offset = [0, 3] := by
  refine ⟨?_, by decide, by decide, by decide, by decide⟩
  intro fields hne
  rw [planStride_eq, packedEnd_eq, maxAlign_eq]
  have hmapne : fields.map Prod.snd ≠ [] := by
    intro h
    exact hne (List.map_eq_nil_iff.mp h)
  have ha : 0 < WF.maxAlign (fields.map Prod.snd) := WF.maxAlign_pos _ hmapne
  refine ⟨WF.roundUp_dvd _ _ ha, WF.packedEnd_le_planStride fields, ?_⟩
  intro m hdvd hle
  exact WF.roundUp_min _ _ m ha hdvd hle

/-- Witness for the least-multiple stride property at [(a, f32), (b, vec3)]:
the stride 8 is a multiple of the maximum alignment 4, is at least the packed
end 7, and is below the competing multiple 12. -/
theorem spec_stride_least_multiple_witness :
    (([("a", WgslType.f32), ("b", WgslType.vec3)] : List (String × WgslType)) ≠ []) ∧
    (GC.maxAlign ([("a", WgslType.f32), ("b", WgslType.vec3)].map Prod.snd) ∣
      GC.planStride [("a", WgslType.f32), ("b", WgslType.vec3)]) ∧
    GC.packedEnd [("a", WgslType.f32), ("b", WgslType.vec3)] 0 ≤
      GC.planStride [("a", WgslType.f32), ("b", WgslType.vec3)] ∧
    GC.planStride [("a", WgslType.f32), ("b", WgslType.vec3)] ≤ 12 :=
  have h := (spec_stride_least_multiple).1 [("a", WgslType.f32), ("b", WgslType.vec3)]
    (by decide)
  ⟨by decide, h.1, h.2.1, h.2.2 12 (by decide) (by decide)⟩

/-- C7: the flat buffer produced by a build has length exactly
stride times the number of records: for the struct-array builder of
WGSL_Fun.ts on any non-empty record list, and for any successful
`buildBuffer` of GpuComputed.ts. -/
theorem spec_buffer_length :
    (∀ (tem : WF.StructArr) (values : List Rec), values ≠ [] →
      (WF.buildStructArray tem values).length = tem.stride * values.length) ∧
    (∀ (data : List Rec) (ks : Option (List String)) (ts : Option (List WgslType))
        (r : GC.BufferType), GC.buildBuffer data ks ts = .ok r →
      r.buffer.length = r.stride * r.count ∧ r.count = data.length) := by
  constructor
  · intro tem values _
    exact WF.buildStructArray_length tem values
  · intro data ks ts r h
    exact GC.buildBuffer_ok_shape data ks ts r h

/-- Witness for the buffer length invariant: a one-record build on a vec3
layout with stride 4, and a successful `buildBuffer` on one scalar record. -/
theorem spec_buffer_length_witness :
    (([[("a", JVal.elem (JElem.num (JSNum.val 1)))]] : List Rec) ≠ []) ∧
    (WF.buildStructArray ⟨4, [⟨"a", WgslType.vec3, 0, 3⟩]⟩
        [[("a", JVal.elem (JElem.num (JSNum.val 1)))]]).length =
      (⟨4, [⟨"a", WgslType.vec3, 0, 3⟩]⟩ : WF.StructArr).stride *
        ([[("a", JVal.elem (JElem.num (JSNum.val 1)))]] : List Rec).length ∧
    GC.buildBuffer [[("a", JVal.elem (JElem.num (JSNum.val 1)))]] none none =
      .ok ⟨[JSNum.val 1], 1, [⟨"a", WgslType.f32, 0, 1⟩], 1⟩ ∧
    (([JSNum.val 1] : List JSNum).length = 1 * 1 ∧ (1 : ℕ) = 1) :=
  ⟨by decide,
    (spec_buffer_length).1 ⟨4, [⟨"a", WgslType.vec3, 0, 3⟩]⟩
      [[("a", JVal.elem (JElem.num (JSNum.val 1)))]] (by decide),
    by decide,
    (spec_buffer_length).2 [[("a", JVal.elem (JElem.num (JSNum.val 1)))]] none none
      ⟨[JSNum.val 1], 1, [⟨"a", WgslType.f32, 0, 1⟩], 1⟩ (by decide)⟩

end ClaimTheorems

section ClaimTheoremsTwo

/-- C6: type inference is deterministic and dispatches on length alone, in
both engine copies: any sequence of length 3 is inferred as vec3, and any
sequence of length 5 (no supported element count) fails with an error
identifying the field name and the length. -/
theorem spec_infer_deterministic :
    (∀ (k : String) (l : List JElem), l.length = 3 →
      GC.inferType k (some (.arr l)) = .ok .vec3 ∧
      WF.inferType k (some (.arr l)) = .ok .vec3) ∧
    (∀ (k : String) (l : List JElem), l.length = 5 →
      GC.inferType k (some (.arr l)) =
        .error (k ++ " 不支持的数组长度 " ++ toString l.length) ∧
      WF.inferType k (some (.arr l)) =
        .error (k ++ " 不支持的数组长度 " ++ toString l.length)) := by
  constructor
  · intro k l h
    constructor
    · simp only [GC.inferType]
      rw [h]
      rfl
    · simp only [WF.inferType]
      rw [h]
      rfl
  · intro k l h
    constructor
    · simp only [GC.inferType]
      rw [h]
      rfl
    · simp only [WF.inferType]
      rw [h]
      rfl

/-- Witness for the type-inference claim: a sequence [1, 2, 3] infers vec3
in both copies, and a sequence of five ones fails in both copies with the
error naming the field a and the length 5. -/
theorem spec_infer_deterministic_witness :
    (([JElem.num (JSNum.val 1), JElem.num (JSNum.val 2),
        JElem.num (JSNum.val 3)] : List JElem).length = 3) ∧
    (GC.inferType "a" (some (.arr [JElem.num (JSNum.val 1), JElem.num (JSNum.val 2),
        JElem.num (JSNum.val 3)])) = .ok .vec3 ∧
     WF.inferType "a" (some (.arr [JElem.num (JSNum.val 1), JElem.num (JSNum.val 2),
        JElem.num (JSNum.val 3)])) = .ok .vec3) ∧
    ((List.replicate 5 (JElem.num (JSNum.val 1))).length = 5) ∧
    (GC.inferType "a" (some (.arr (List.replicate 5 (JElem.num (JSNum.val 1))))) =
      .error ("a" ++ " 不支持的数组长度 " ++
        toString (List.replicate 5 (JElem.num (JSNum.val 1))).length) ∧
     WF.inferType "a" (some (.arr (List.replicate 5 (JElem.num (JSNum.val 1))))) =
      .error ("a" ++ " 不支持的数组长度 " ++
        toString (List.replicate 5 (JElem.num (JSNum.val 1))).length)) :=
  ⟨by decide, (spec_infer_deterministic).1 "a" _ (by decide), by decide,
    (spec_infer_deterministic).2 "a" _ (by decide)⟩

/-- C8: building the single-record list containing the empty record against
any given non-empty layout (explicit keys and types) succeeds and produces
an all-zero buffer of length stride — a missing field is written as zero per
element and is not an error — and, likewise, any missing trailing element of
a short sequence is written as zero. -/
theorem spec_empty_record_zeros (ks : List String) (ts : List WgslType)
    (hlen : ks.length = ts.length) (hne : ts ≠ []) :
    GC.buildBuffer [[]] (some ks) (some ts) =
      .ok ⟨List.replicate (GC.planStride (ks.zip ts)) (JSNum.val 0),
           GC.planStride (ks.zip ts), GC.planFields (ks.zip ts) 0, 1⟩ ∧
    (∀ (l : List JElem) (i : ℕ), l.length ≤ i →
      writtenElem (wrapValue (some (.arr l))) i = JSNum.val 0) := by
  constructor
  · exact GC.buildBuffer_emptyRec ks ts hlen
  · intro l i hi
    have h1 : (wrapValue (some (.arr l)))[i]? = none := by
      apply List.getElem?_eq_none
      simpa [wrapValue] using hi
    unfold writtenElem
    rw [h1]

/-- Witness for the empty-record build at the layout
[(a, f32), (b, vec3)]: the buffer is the eight zeros of one stride, and
element 3 of the short sequence [1] is written as zero. -/
theorem spec_empty_record_zeros_witness :
    (["a", "b"].length = [WgslType.f32, WgslType.vec3].length) ∧
    (([WgslType.f32, WgslType.vec3] : List WgslType) ≠ []) ∧
    GC.buildBuffer [[]] (some ["a", "b"]) (some [WgslType.f32, WgslType.vec3]) =
      .ok ⟨List.replicate (GC.planStride (["a", "b"].zip [WgslType.f32, WgslType.vec3]))
             (JSNum.val 0),
           GC.planStride (["a", "b"].zip [WgslType.f32, WgslType.vec3]),
           GC.planFields (["a", "b"].zip [WgslType.f32, WgslType.vec3]) 0, 1⟩ ∧
    writtenElem (wrapValue (some (.arr [JElem.num (JSNum.val 1)]))) 3 = JSNum.val 0 :=
  ⟨by decide, by decide,
    (spec_empty_record_zeros ["a", "b"] [WgslType.f32, WgslType.vec3]
      (by decide) (by decide)).1,
    (spec_empty_record_zeros ["a", "b"] [WgslType.f32, WgslType.vec3]
      (by decide) (by decide)).2 [JElem.num (JSNum.val 1)] 3 (by decide)⟩

/-- C9: the two duplicated engine implementations agree on layout: for every
ordered list of (name, supported type) pairs, the offset/size computation of
buildBuffer (GpuComputed.ts) and of buildStructTypeByData (WGSL_Fun.ts)
produce identical field descriptors — hence identical offsets and sizes —
and an identical stride. -/
theorem spec_engines_agree (fields : List (String × WgslType)) :
    GC.planFields fields 0 = WF.planFields fields 0 ∧
    GC.planStride fields = WF.planStride fields :=
  ⟨planFields_eq fields 0, planStride_eq fields⟩

/-- C10: build writes exactly size elements per field: the buffer built from
any record list equals the buffer built after truncating every supplied
sequence to its field's declared element count, so excess elements beyond
index size - 1 are silently ignored and never written.  Field names are
assumed unique within the layout, as they are for any layout derived from a
JavaScript object. -/
theorem spec_excess_elements_ignored (tem : WF.StructArr)
    (hnd : (tem.layout.map FieldDesc.name).Nodup) (values : List Rec) :
    WF.buildStructArray tem values =
      WF.buildStructArray tem (values.map (truncRec tem.layout)) := by
  unfold WF.buildStructArray
  rw [List.length_map]
  exact (writeRecordsLoop_trunc tem.layout
    (fun fd hfd => findField_nodup tem.layout hnd fd hfd) tem.stride values 0 _).symm

/-- Witness for the excess-element claim: a vec3 field supplied with five
elements builds the same buffer as its three-element truncation. -/
theorem spec_excess_elements_ignored_witness :
    ((([⟨"a", WgslType.vec3, 0, 3⟩] : List FieldDesc).map FieldDesc.name).Nodup) ∧
    WF.buildStructArray ⟨4, [⟨"a", WgslType.vec3, 0, 3⟩]⟩
        [[("a", JVal.arr [JElem.num (JSNum.val 1), JElem.num (JSNum.val 2),
            JElem.num (JSNum.val 3), JElem.num (JSNum.val 4), JElem.num (JSNum.val 5)])]] =
      WF.buildStructArray ⟨4, [⟨"a", WgslType.vec3, 0, 3⟩]⟩
        ([[("a", JVal.arr [JElem.num (JSNum.val 1), JElem.num (JSNum.val 2),
            JElem.num (JSNum.val 3), JElem.num (JSNum.val 4),
            JElem.num (JSNum.val 5)])]].map (truncRec [⟨"a", WgslType.vec3, 0, 3⟩])) :=
  ⟨by decide,
    spec_excess_elements_ignored ⟨4, [⟨"a", WgslType.vec3, 0, 3⟩]⟩ (by decide) _⟩

end ClaimTheoremsTwo

section CorrectedClaims

/-- Counterexample to C4: the one-record list whose field a holds the
sequence [1, "abc", 3] — containing an element that cannot be coerced to a
number — does not make the build fail with any InvalidFieldValue error:
buildBuffer returns ok and writes NaN into the buffer at that element's
position. -/
theorem spec_invalid_value_counterexample :
    GC.buildBuffer [[("a", JVal.arr [JElem.num (JSNum.val 1), JElem.other,
        JElem.num (JSNum.val 3)])]] none none =
      .ok ⟨[JSNum.val 1, JSNum.nan, JSNum.val 3, JSNum.val 0], 4,
           [⟨"a", WgslType.vec3, 0, 3⟩], 1⟩ := by
  decide

/-- C4 amended: a record field element that cannot be coerced to a number
does not fail the build — the code has no InvalidFieldValue error at all;
the element is coerced to NaN and written into the output buffer (shown for
any vec3-shaped value carrying a non-coercible element between two
numbers). -/
theorem spec_invalid_value_amended (q r : ℚ) :
    GC.buildBuffer [[("a", JVal.arr [JElem.num (JSNum.val q), JElem.other,
        JElem.num (JSNum.val r)])]] none none =
      .ok ⟨[JSNum.val q, JSNum.nan, JSNum.val r, JSNum.val 0], 4,
           [⟨"a", WgslType.vec3, 0, 3⟩], 1⟩ := by
  rfl

/-- Counterexample to C5: demapping a flat buffer of length 5 against a
stride-8 struct-array layout does not fail with any MisalignedBuffer error:
dataMap returns ok with one partially-read record (the clamped one-element
slice of the vec3 field even collapses to a bare scalar). -/
theorem spec_misaligned_counterexample :
    WF.dataMap [("out", WF.TemplateEntry.structArr ⟨8,
        [⟨"a", WgslType.f32, 0, 1⟩, ⟨"b", WgslType.vec3, 4, 3⟩]⟩)]
      [JSNum.val 1, JSNum.val 2, JSNum.val 3, JSNum.val 4, JSNum.val 5] "out" =
      .ok (.records [[("a", .scalar (JSNum.val 1)), ("b", .scalar (JSNum.val 5))]]) := by
  decide

/-- C5 amended: dataMap performs no misalignment check and never fails for a
key present in the template: over a struct-array slot it returns ok with
ceiling(length / stride) records (the source loop bound length / stride is a
fractional JavaScript number, and slices past the end are clamped); when the
length is an exact multiple of the stride that count is exactly
length / stride. -/
theorem spec_misaligned_amended :
    (∀ (template : List (String × WF.TemplateEntry)) (key : String)
        (tem : WF.StructArr) (a : List JSNum),
      assocLookup template key = some (WF.TemplateEntry.structArr tem) →
      WF.dataMap template a key = .ok (.records (WF.dataMapArray tem a))) ∧
    (∀ (tem : WF.StructArr) (a : List JSNum), 0 < tem.stride →
      (WF.dataMapArray tem a).length = (a.length + tem.stride - 1) / tem.stride ∧
      (tem.stride ∣ a.length →
        (WF.dataMapArray tem a).length = a.length / tem.stride)) := by
  constructor
  · intro template key tem a h
    unfold WF.dataMap
    rw [h]
  · intro tem a hs
    have hlen : (WF.dataMapArray tem a).length = WF.numRecords a.length tem.stride := by
      unfold WF.dataMapArray
      rw [List.length_map, List.length_range]
    refine ⟨by rw [hlen]; rfl, ?_⟩
    intro hdvd
    rw [hlen]
    exact WF.numRecords_dvd a.length tem.stride hs hdvd

/-- Witness for the amended demap behaviour: a stride-8 slot read back from
a buffer of sixteen twos yields ok with (16 + 8 - 1) / 8 = 16 / 8 = 2
records. -/
theorem spec_misaligned_amended_witness :
    (assocLookup [("out", WF.TemplateEntry.structArr ⟨8,
        [⟨"a", WgslType.f32, 0, 1⟩, ⟨"b", WgslType.vec3, 4, 3⟩]⟩)] "out" =
      some (WF.TemplateEntry.structArr ⟨8,
        [⟨"a", WgslType.f32, 0, 1⟩, ⟨"b", WgslType.vec3, 4, 3⟩]⟩)) ∧
    WF.dataMap [("out", WF.TemplateEntry.structArr ⟨8,
        [⟨"a", WgslType.f32, 0, 1⟩, ⟨"b", WgslType.vec3, 4, 3⟩]⟩)]
      (List.replicate 16 (JSNum.val 2)) "out" =
      .ok (.records (WF.dataMapArray ⟨8,
        [⟨"a", WgslType.f32, 0, 1⟩, ⟨"b", WgslType.vec3, 4, 3⟩]⟩
        (List.replicate 16 (JSNum.val 2)))) ∧
    (0 : ℕ) < 8 ∧
    (WF.dataMapArray ⟨8, [⟨"a", WgslType.f32, 0, 1⟩, ⟨"b", WgslType.vec3, 4, 3⟩]⟩
        (List.replicate 16 (JSNum.val 2))).length =
      ((List.replicate 16 (JSNum.val 2)).length + 8 - 1) / 8 ∧
    (WF.dataMapArray ⟨8, [⟨"a", WgslType.f32, 0, 1⟩, ⟨"b", WgslType.vec3, 4, 3⟩]⟩
        (List.replicate 16 (JSNum.val 2))).length =
      (List.replicate 16 (JSNum.val 2)).length / 8 :=
  ⟨by decide,
    (spec_misaligned_amended).1 _ "out" _ (List.replicate 16 (JSNum.val 2)) (by decide),
    by decide,
    ((spec_misaligned_amended).2 ⟨8, [⟨"a", WgslType.f32, 0, 1⟩,
        ⟨"b", WgslType.vec3, 4, 3⟩]⟩ (List.replicate 16 (JSNum.val 2)) (by decide)).1,
    ((spec_misaligned_amended).2 ⟨8, [⟨"a", WgslType.f32, 0, 1⟩,
        ⟨"b", WgslType.vec3, 4, 3⟩]⟩ (List.replicate 16 (JSNum.val 2)) (by decide)).2
      (by decide)⟩

end CorrectedClaims
